import Mathlib

/-!
# Verification of the movieparse resolution-and-caching pipeline

Shallow embedding of `movieparse/main.py` (class `movieparse`): the naming
parser, the mapping store, the ID resolver, the cache reconciler and the
metadata normalizer, together with theorems settling the specification
claims about them.

Machine integers in the source are plain Python ints (unbounded), so they
are embedded as `Int`.  pandas DataFrames are embedded as lists of rows in
order; pandas/Python sets as `Finset Int`.  The external HTTP service is a
parameter (a function from the request data to the decoded response).
-/

namespace Movieparse

/-- `movieparse.__DEFAULT`: unresolved / never attempted. -/
def DEFAULT : Int := 0

/-- `movieparse.__NO_RESULT`: lookup attempted, no match. -/
def NO_RESULT : Int := -1

/-- `movieparse.__NO_EXTRACT`: name did not match the selected pattern. -/
def NO_EXTRACT : Int := -2

/-- `movieparse.__BAD_RESPONSE`: lookup service returned a malformed payload. -/
def BAD_RESPONSE : Int := -3

/-- One row of the mapping DataFrame created in `parse_movielist` /
`parse_root_movie_dir`: columns `tmdb_id`, `tmdb_id_man`, `input`,
`canonical_input`. -/
structure Row where
  tmdb_id : Int
  tmdb_id_man : Int
  input : String
  canonical_input : String
deriving DecidableEq, Repr

/-! ## Naming patterns (`get_parsing_patterns`)

The two regexes are `^(?P<disk_year>\d{4})\s{1}(?P<disk_title>.+)$` (style 0)
and `^(?P<disk_year>\d{4})\s-\s(?P<disk_title>.+)$` (style 1).  A match needs
four digits, the separator, and a nonempty title in which `.` may not match a
newline.  `\s` is the regex whitespace class. -/

/-- The regex `\s` whitespace class (ASCII part). -/
def isRegexSpace (c : Char) : Bool :=
  c = ' ' || c = '\t' || c = '\n' || c = '\r' || c = '\x0b' || c = '\x0c'

/-- Numeric value of the four year digits. -/
def yearOf (a b c d : Char) : Nat :=
  1000 * (a.toNat - 48) + 100 * (b.toNat - 48) + 10 * (c.toNat - 48) + (d.toNat - 48)

/-- `re.match` with pattern 0 (`\d{4}`, one whitespace, `.+`): returns
(disk_year, disk_title) on a match. -/
def matchPattern0 : List Char → Option (Nat × List Char)
  | a :: b :: c :: d :: sep :: rest =>
    if a.isDigit && b.isDigit && c.isDigit && d.isDigit && isRegexSpace sep
        && !rest.isEmpty && rest.all (fun ch => ch ≠ '\n') then
      some (yearOf a b c d, rest)
    else none
  | _ => none

/-- `re.match` with pattern 1 (`\d{4}`, whitespace, `-`, whitespace, `.+`). -/
def matchPattern1 : List Char → Option (Nat × List Char)
  | a :: b :: c :: d :: s1 :: dash :: s2 :: rest =>
    if a.isDigit && b.isDigit && c.isDigit && d.isDigit && isRegexSpace s1
        && dash = '-' && isRegexSpace s2
        && !rest.isEmpty && rest.all (fun ch => ch ≠ '\n') then
      some (yearOf a b c d, rest)
    else none
  | _ => none

/-- The keys of the `get_parsing_patterns()` dict. -/
def parsing_pattern_keys : List Int := [0, 1]

/-- Dict lookup `get_parsing_patterns()[style]`: `none` models a `KeyError`. -/
def get_parsing_pattern (style : Int) : Option (List Char → Option (Nat × List Char)) :=
  if style = 0 then some matchPattern0
  else if style = 1 then some matchPattern1
  else none

/-- `max(movieparse.get_parsing_patterns().keys())`. -/
def max_parsing_pattern_key : Int := parsing_pattern_keys.maximum.getD 0

/-- The `__init__` selector check
`parsing_style in range(-1, max(get_parsing_patterns().keys()))`;
`false` means `exit("please supply a valid PARSING_STYLE!")`. -/
def parsing_style_accepted (parsing_style : Int) : Bool :=
  -1 ≤ parsing_style && parsing_style < max_parsing_pattern_key

/-- `re.match(get_parsing_patterns()[style], name)` followed by reading the
two named groups, as done in the `helper` of `_get_ids`.  An invalid style
gives `none` (the Python code would raise `KeyError` there). -/
def extract (style : Int) (name : String) : Option (Nat × String) :=
  match get_parsing_pattern style with
  | some p => (p name.toList).map fun yt => (yt.1, String.mk yt.2)
  | none => none

/-! ## Parsing-style auto-detection (`_guess_parsing_style`) -/

/-- `tmp["canonical_input"].str.extract(pattern).notnull().sum().sum()`:
each matching name contributes its two captured fields, a non-matching name
contributes none. -/
def countMatches (style : Int) (names : List String) : Nat :=
  2 * (names.filter fun n => (extract style n).isSome).length

/-- `_guess_parsing_style`, unfolded over the two dict entries in key order:
the running `(style, max_matches)` state starts at `(-1, 0)` and is updated
whenever a pattern scores strictly more matches; if the final score is zero
the run exits (`none`). -/
def guess_parsing_style (names : List String) : Option Int :=
  let c0 := countMatches 0 names
  let c1 := countMatches 1 names
  let s1 : Int × Nat := if c0 > 0 then (0, c0) else (-1, 0)
  let s2 : Int × Nat := if c1 > s1.2 then (1, c1) else s1
  if s2.2 = 0 then none else some s2.1

/-- Style selection inside `_generic_parse`: auto-detect only when the
configured style is `-1`, otherwise keep it. -/
def parse_pipeline_style (parsing_style : Int) (names : List String) : Option Int :=
  if parsing_style = -1 then guess_parsing_style names else some parsing_style

/-! ## Mapping store (`_update_mapping`) -/

/-- `DataFrame.drop_duplicates(subset="canonical_input", keep="first")`:
keeps the first row for each canonical input, preserving order.  `seen` is
the set of canonical inputs already kept. -/
def drop_duplicates_go (seen : List String) : List Row → List Row
  | [] => []
  | r :: rs =>
    if r.canonical_input ∈ seen then drop_duplicates_go seen rs
    else r :: drop_duplicates_go (r.canonical_input :: seen) rs

/-- `drop_duplicates(subset="canonical_input", keep="first")`. -/
def drop_duplicates (l : List Row) : List Row := drop_duplicates_go [] l

/-- `_update_mapping`: `pd.concat([cached_mapping, mapping])` followed by
the dedup on `canonical_input`. -/
def update_mapping (cached_mapping mapping : List Row) : List Row :=
  drop_duplicates (cached_mapping ++ mapping)

/-- The fresh mapping built by `parse_movielist`: every row starts with
`tmdb_id = tmdb_id_man = DEFAULT` and `input = canonical_input` the list
entry. -/
def fresh_mapping (movielist : List String) : List Row :=
  movielist.map fun s => { tmdb_id := DEFAULT, tmdb_id_man := DEFAULT,
                           input := s, canonical_input := s }

/-! ## ID resolver (`_get_id`)

A decoded search response is `Option (List (Option Int))`:
`none` models a payload without a `results` key (`KeyError`), `some l` a
`results` array whose entries carry `some id` or `none` when the `id` field
is missing (`KeyError`).  An empty array gives `IndexError`. -/

/-- Outcome of evaluating `int(response["results"][0]["id"])`. -/
inductive FirstIdOutcome where
  | ok (id : Int)
  | indexError
  | keyError
deriving DecidableEq, Repr

/-- `response["results"][0]["id"]` with its two exception paths. -/
def firstId : Option (List (Option Int)) → FirstIdOutcome
  | none => .keyError
  | some [] => .indexError
  | some (none :: _) => .keyError
  | some (some i :: _) => .ok i

/-- `_get_id(title, year)`.  `search_with_year` and `search_title_only` are
the two HTTP requests (external collaborators).  The title+year request is
only issued when `year != NO_RESULT`; on its `IndexError` the strict flag
decides between returning `NO_RESULT` and falling through to the title-only
request. -/
def get_id (search_with_year : String → Int → Option (List (Option Int)))
    (search_title_only : String → Option (List (Option Int)))
    (strict : Bool) (title : String) (year : Int) : Int :=
  let titleOnly : Int :=
    match firstId (search_title_only title) with
    | .ok i => i
    | .indexError => NO_RESULT
    | .keyError => BAD_RESPONSE
  if year ≠ NO_RESULT then
    match firstId (search_with_year title year) with
    | .ok i => i
    | .indexError => if strict then NO_RESULT else titleOnly
    | .keyError => BAD_RESPONSE
  else titleOnly

/-! ## Resolution pass (`_get_ids`) -/

/-- The `helper` closure of `_get_ids`.  `resolve` abstracts
`self._get_id(title, year)`. -/
def get_ids_helper (resolve : String → Int → Int) (parsing_style : Int)
    (eager : Bool) (canon_name : String) (tmdb_id : Int) : Int :=
  if tmdb_id ≠ DEFAULT ∧ ¬eager then tmdb_id
  else
    match extract parsing_style canon_name with
    | some yt => resolve yt.2 (yt.1 : Int)
    | none => NO_EXTRACT

/-- `_get_ids`: recompute the `tmdb_id` column row by row; all other columns
are untouched. -/
def get_ids (resolve : String → Int → Int) (parsing_style : Int) (eager : Bool)
    (mapping : List Row) : List Row :=
  mapping.map fun r =>
    { r with tmdb_id := get_ids_helper resolve parsing_style eager r.canonical_input r.tmdb_id }

/-- One resolution pass as `_generic_parse` runs it on a fresh movie list:
merge the persisted mapping with the fresh rows, then resolve. -/
def resolution_pass (resolve : String → Int → Int) (parsing_style : Int)
    (eager : Bool) (cached_mapping : List Row) (movielist : List String) : List Row :=
  get_ids resolve parsing_style eager (update_mapping cached_mapping (fresh_mapping movielist))

/-! ## Cache reconciler (`_update_metadata_lookup_ids`) -/

/-- `_update_metadata_lookup_ids`: union of the two id columns; the cached
metadata ids are subtracted when (and only when) `EAGER` is true; the four
sentinel codes are removed last. -/
def update_metadata_lookup_ids (mapping : List Row) (cached_metadata_ids : Finset Int)
    (eager : Bool) : Finset Int :=
  let ids := (mapping.map Row.tmdb_id).toFinset ∪ (mapping.map Row.tmdb_id_man).toFinset
  let ids := if eager then ids \ cached_metadata_ids else ids
  ids \ ({DEFAULT, NO_RESULT, NO_EXTRACT, BAD_RESPONSE} : Finset Int)

/-! ## Metadata normalizer (`_dissect_metadata_response`)

The eight accumulator DataFrames; a row is `(tmdb_id, payload)` where the
payload stands for the normalized record's remaining fields. -/

/-- The tables of `_table_iter`, in iteration order. -/
structure Tables where
  cast : List (Int × String)
  collect : List (Int × String)
  crew : List (Int × String)
  genres : List (Int × String)
  prod_comp : List (Int × String)
  prod_count : List (Int × String)
  spoken_langs : List (Int × String)
  details : List (Int × String)
deriving DecidableEq, Repr

/-- A decoded metadata document.  For each nested section, `none` models a
missing key or a non-list value: `pd.json_normalize(..., record_path=c)` (or
the plain dict access) raises on it.  `credits` holds the `cast` and `crew`
lists; `belongs_to_collection` distinguishes a missing key (`none`) from an
explicit `null` (`some none`), which the code tolerates.  `has_id` records
whether the `id` key is present (`response.pop("id")` raises otherwise);
`details_payload` stands for the remaining scalar fields. -/
structure MetadataResponse where
  credits : Option (Option (List String) × Option (List String))
  belongs_to_collection : Option (Option (List String))
  genres : Option (List String)
  production_companies : Option (List String)
  production_countries : Option (List String)
  spoken_languages : Option (List String)
  has_id : Bool
  details_payload : String
deriving DecidableEq, Repr

/-- `tmp["tmdb_id"] = tmdb_id` followed by moving that column first: every
extracted row is tagged with its catalog ID. -/
def tag (tmdb_id : Int) (rows : List String) : List (Int × String) :=
  rows.map fun s => (tmdb_id, s)

/-- `_dissect_metadata_response`: walks the tables in `_table_iter` order
(cast, collection, crew, genres, production_companies, production_countries,
spoken_languages, details), appending each nonempty extraction to its
accumulator.  `none` models an uncaught exception escaping the method: the
body has no handler, so the first missing or malformed section aborts the
whole call and no accumulator is updated. -/
def dissect_metadata_response (t : Tables) (resp : MetadataResponse)
    (tmdb_id : Int) : Option Tables :=
  match resp.credits with
  | none => none
  | some credits =>
    match credits.1 with
    | none => none
    | some castRows =>
      match resp.belongs_to_collection with
      | none => none
      | some btc =>
        let collRows := match btc with | none => [] | some rows => rows
        match credits.2 with
        | none => none
        | some crewRows =>
          match resp.genres with
          | none => none
          | some genreRows =>
            match resp.production_companies with
            | none => none
            | some pcRows =>
              match resp.production_countries with
              | none => none
              | some pcnRows =>
                match resp.spoken_languages with
                | none => none
                | some slRows =>
                  if resp.has_id then
                    some { cast := t.cast ++ tag tmdb_id castRows
                           collect := t.collect ++ tag tmdb_id collRows
                           crew := t.crew ++ tag tmdb_id crewRows
                           genres := t.genres ++ tag tmdb_id genreRows
                           prod_comp := t.prod_comp ++ tag tmdb_id pcRows
                           prod_count := t.prod_count ++ tag tmdb_id pcnRows
                           spoken_langs := t.spoken_langs ++ tag tmdb_id slRows
                           details := t.details ++ [(tmdb_id, resp.details_payload)] }
                  else none

/-- The empty accumulator state (all tables start as empty DataFrames). -/
def emptyTables : Tables :=
  { cast := [], collect := [], crew := [], genres := [], prod_comp := [],
    prod_count := [], spoken_langs := [], details := [] }

/-- A metadata document in which exactly one nested section (`genres`) is
malformed/missing and every other section is present and well-formed. -/
def genresMissingDoc : MetadataResponse :=
  { credits := some (some ["cast-row"], some ["crew-row"])
    belongs_to_collection := some none
    genres := none
    production_companies := some ["pc-row"]
    production_countries := some ["pcn-row"]
    spoken_languages := some ["sl-row"]
    has_id := true
    details_payload := "details-row" }

/-! ## General lemmas on the canonical-input dedup -/

theorem drop_duplicates_go_eq_nil (seen : List String) (l : List Row)
    (h : ∀ r ∈ l, r.canonical_input ∈ seen) :
    drop_duplicates_go seen l = [] := by
  induction l with
  | nil => rfl
  | cons r rs ih =>
      have hr : r.canonical_input ∈ seen := h r (List.mem_cons_self r rs)
      simp only [drop_duplicates_go, if_pos hr]
      exact ih fun q hq => h q (List.mem_cons_of_mem r hq)

theorem mem_keys_drop_duplicates_go (seen : List String) (l : List Row) (c : String) :
    c ∈ (drop_duplicates_go seen l).map Row.canonical_input ↔
      c ∈ l.map Row.canonical_input ∧ c ∉ seen := by
  induction l generalizing seen with
  | nil => simp [drop_duplicates_go]
  | cons r rs ih =>
      by_cases hr : r.canonical_input ∈ seen
      · simp only [drop_duplicates_go, if_pos hr, ih, List.map_cons, List.mem_cons]
        constructor
        · rintro ⟨hc, hs⟩; exact ⟨Or.inr hc, hs⟩
        · rintro ⟨hc | hc, hs⟩
          · exact absurd (hc ▸ hr) hs
          · exact ⟨hc, hs⟩
      · simp only [drop_duplicates_go, if_neg hr, List.map_cons, List.mem_cons, ih,
          List.mem_cons]
        constructor
        · rintro (hc | ⟨hc, hs⟩)
          · exact ⟨Or.inl hc, hc ▸ hr⟩
          · exact ⟨Or.inr hc, fun hmem => hs (Or.inr hmem)⟩
        · rintro ⟨hc | hc, hs⟩
          · exact Or.inl hc
          · by_cases hcr : c = r.canonical_input
            · exact Or.inl hcr
            · exact Or.inr ⟨hc, fun hmem => by
                rcases hmem with hmem | hmem
                · exact hcr hmem
                · exact hs hmem⟩

theorem drop_duplicates_go_append (seen : List String) (l₁ l₂ : List Row)
    (h : ∀ c ∈ l₂.map Row.canonical_input, c ∈ l₁.map Row.canonical_input ∨ c ∈ seen) :
    drop_duplicates_go seen (l₁ ++ l₂) = drop_duplicates_go seen l₁ := by
  induction l₁ generalizing seen with
  | nil =>
      simp only [List.nil_append, drop_duplicates_go]
      exact drop_duplicates_go_eq_nil seen l₂ fun r hr => by
        rcases h r.canonical_input (List.mem_map_of_mem Row.canonical_input hr) with hc | hc
        · simp at hc
        · exact hc
  | cons r rs ih =>
      by_cases hr : r.canonical_input ∈ seen
      · simp only [List.cons_append, drop_duplicates_go, if_pos hr]
        exact ih seen fun c hc => by
          rcases h c hc with hc1 | hc1
          · simp only [List.map_cons, List.mem_cons] at hc1
            rcases hc1 with hc1 | hc1
            · exact Or.inr (hc1 ▸ hr)
            · exact Or.inl hc1
          · exact Or.inr hc1
      · simp only [List.cons_append, drop_duplicates_go, if_neg hr]
        congr 1
        exact ih (r.canonical_input :: seen) fun c hc => by
          rcases h c hc with hc1 | hc1
          · simp only [List.map_cons, List.mem_cons] at hc1
            rcases hc1 with hc1 | hc1
            · exact Or.inr (List.mem_cons.mpr (Or.inl hc1))
            · exact Or.inl hc1
          · exact Or.inr (List.mem_cons_of_mem _ hc1)

theorem drop_duplicates_go_of_nodup (seen : List String) (l : List Row)
    (hnd : (l.map Row.canonical_input).Nodup)
    (hs : ∀ c ∈ l.map Row.canonical_input, c ∉ seen) :
    drop_duplicates_go seen l = l := by
  induction l generalizing seen with
  | nil => rfl
  | cons r rs ih =>
      simp only [List.map_cons, List.nodup_cons] at hnd
      have hr : r.canonical_input ∉ seen :=
        hs r.canonical_input (by simp)
      simp only [drop_duplicates_go, if_neg hr]
      congr 1
      exact ih (r.canonical_input :: seen) hnd.2 fun c hc => by
        intro hmem
        rcases List.mem_cons.mp hmem with hmem | hmem
        · exact hnd.1 (hmem ▸ hc)
        · exact hs c (List.mem_cons_of_mem _ hc) hmem

theorem drop_duplicates_go_keys_nodup (seen : List String) (l : List Row) :
    ((drop_duplicates_go seen l).map Row.canonical_input).Nodup := by
  induction l generalizing seen with
  | nil => simp [drop_duplicates_go]
  | cons r rs ih =>
      by_cases hr : r.canonical_input ∈ seen
      · simpa only [drop_duplicates_go, if_pos hr] using ih seen
      · simp only [drop_duplicates_go, if_neg hr, List.map_cons, List.nodup_cons]
        refine ⟨fun hmem => ?_, ih _⟩
        have := (mem_keys_drop_duplicates_go _ rs _).mp hmem
        exact this.2 (List.mem_cons_self _ _)

theorem drop_duplicates_go_filter (seen : List String) (l : List Row) (c : String) :
    (drop_duplicates_go seen l).filter (fun r => decide (r.canonical_input = c)) =
      if c ∈ seen then [] else (l.find? fun r => decide (r.canonical_input = c)).toList := by
  induction l generalizing seen with
  | nil => simp [drop_duplicates_go]
  | cons r rs ih =>
      by_cases hr : r.canonical_input ∈ seen
      · rw [drop_duplicates_go, if_pos hr, ih]
        by_cases hc : c ∈ seen
        · simp [hc]
        · have hne : ¬ r.canonical_input = c := fun h => hc (h ▸ hr)
          simp [hc, hne]
      · rw [drop_duplicates_go, if_neg hr]
        by_cases hrc : r.canonical_input = c
        · have hc : c ∉ seen := fun h => hr (hrc ▸ h)
          rw [List.filter_cons_of_pos (by simp [hrc]), ih]
          have : c ∈ r.canonical_input :: seen := List.mem_cons.mpr (Or.inl hrc.symm)
          rw [if_pos this, if_neg hc, List.find?_cons_of_pos _ (by simp [hrc])]
          rfl
        · rw [List.filter_cons_of_neg (by simp [hrc]), ih]
          have hiff : (c ∈ r.canonical_input :: seen) ↔ c ∈ seen := by
            simp only [List.mem_cons]
            exact ⟨fun h => h.elim (fun h1 => absurd h1.symm hrc) id, Or.inr⟩
          by_cases hc : c ∈ seen
          · rw [if_pos (hiff.mpr hc), if_pos hc]
          · rw [if_neg (fun h => hc (hiff.mp h)), if_neg hc,
              List.find?_cons_of_neg _ (by simp [hrc])]

/-! ## General lemmas on the resolution pass -/

theorem get_ids_keys (resolve : String → Int → Int) (style : Int) (eager : Bool)
    (mapping : List Row) :
    (get_ids resolve style eager mapping).map Row.canonical_input =
      mapping.map Row.canonical_input := by
  simp [get_ids, List.map_map]

theorem get_ids_helper_not_eager_idem (resolve : String → Int → Int) (style : Int)
    (canon : String) (t : Int) :
    get_ids_helper resolve style false canon
        (get_ids_helper resolve style false canon t) =
      get_ids_helper resolve style false canon t := by
  by_cases ht : t = DEFAULT
  · cases hex : extract style canon with
    | none =>
        subst ht
        norm_num [get_ids_helper, hex, NO_EXTRACT, DEFAULT]
    | some yt =>
        subst ht
        by_cases hv : resolve yt.2 (yt.1 : Int) = DEFAULT
        · simp [get_ids_helper, hex, hv]
        · simp [get_ids_helper, hex, hv]
  · simp [get_ids_helper, ht]

theorem get_ids_not_eager_idem (resolve : String → Int → Int) (style : Int)
    (mapping : List Row) :
    get_ids resolve style false (get_ids resolve style false mapping) =
      get_ids resolve style false mapping := by
  simp only [get_ids, List.map_map]
  refine List.map_congr_left fun r _ => ?_
  simp only [Function.comp_apply]
  congr 1
  exact get_ids_helper_not_eager_idem resolve style r.canonical_input r.tmdb_id

/-! ## Claim theorems -/

/-- C4: for every mapping table, every cached-metadata set and both values of
the eager flag, the computed set of IDs to fetch never contains any of the
sentinel codes 0, -1, -2, -3. -/
theorem sentinel_codes_never_fetched (mapping : List Row)
    (cached_metadata_ids : Finset Int) (eager : Bool) :
    DEFAULT ∉ update_metadata_lookup_ids mapping cached_metadata_ids eager ∧
    NO_RESULT ∉ update_metadata_lookup_ids mapping cached_metadata_ids eager ∧
    NO_EXTRACT ∉ update_metadata_lookup_ids mapping cached_metadata_ids eager ∧
    BAD_RESPONSE ∉ update_metadata_lookup_ids mapping cached_metadata_ids eager := by
  simp [update_metadata_lookup_ids, DEFAULT, NO_RESULT, NO_EXTRACT, BAD_RESPONSE]

/-- C1: the code subtracts the cached metadata IDs exactly when `eager` is
true, which is the opposite of the claimed (and evidently intended)
behaviour.  At a mapping holding the resolved ID 603 with 603 already in the
metadata cache, an eager run selects nothing for fetch while a non-eager run
re-fetches the cached ID. -/
theorem eager_cache_subtraction_inverted :
    update_metadata_lookup_ids
        [{ tmdb_id := 603, tmdb_id_man := 0, input := "1999 The Matrix",
           canonical_input := "1999 The Matrix" }] {603} true = ∅ ∧
      update_metadata_lookup_ids
        [{ tmdb_id := 603, tmdb_id_man := 0, input := "1999 The Matrix",
           canonical_input := "1999 The Matrix" }] {603} false = {603} := by
  decide

/-- C5: the `__init__` selector check `parsing_style in range(-1, max(keys))`
rejects `parsing_style = 1` even though 1 is a key of the known pattern set:
the `range` excludes its upper bound, so the maximal valid pattern index
aborts construction. -/
theorem parsing_style_one_rejected :
    parsing_style_accepted 1 = false ∧ 1 ∈ parsing_pattern_keys ∧
      (get_parsing_pattern 1).isSome = true ∧
      parsing_style_accepted (-1) = true ∧ parsing_style_accepted 0 = true := by
  decide

/-- C8: auto-detection counts the total field matches of each pattern across
the batch and selects the strict maximum, keeping the earlier pattern in
enumeration order on a tie; if every pattern yields zero matches no pattern
is selected and the run fails. -/
theorem parsing_style_auto_detection (names : List String) :
    (countMatches 0 names = 0 → countMatches 1 names = 0 →
        guess_parsing_style names = none) ∧
    (countMatches 1 names ≤ countMatches 0 names → 0 < countMatches 0 names →
        guess_parsing_style names = some 0) ∧
    (countMatches 0 names < countMatches 1 names →
        guess_parsing_style names = some 1) := by
  refine ⟨fun h0 h1 => ?_, fun hle h0 => ?_, fun hlt => ?_⟩ <;>
    simp only [guess_parsing_style] <;> split_ifs <;> simp_all <;> omega

/-- C8 witness: the spec's own example, pattern 0 scoring 4 field matches
and pattern 1 scoring 0, selects pattern 0. -/
theorem parsing_style_auto_detection_witness :
    guess_parsing_style ["1999 The Matrix", "2010 Inception"] = some 0 := by
  exact (parsing_style_auto_detection ["1999 The Matrix", "2010 Inception"]).2.1
    (by decide) (by decide)

/-- C9: a resolution pass may change only the `tmdb_id` column; the
`tmdb_id_man`, `input` and `canonical_input` columns of every row are
unchanged. -/
theorem resolution_changes_only_tmdb_id (resolve : String → Int → Int)
    (parsing_style : Int) (eager : Bool) (mapping : List Row)
    (_hstyle : parsing_style ∈ parsing_pattern_keys) :
    (get_ids resolve parsing_style eager mapping).map Row.tmdb_id_man =
        mapping.map Row.tmdb_id_man ∧
      (get_ids resolve parsing_style eager mapping).map Row.input =
        mapping.map Row.input ∧
      (get_ids resolve parsing_style eager mapping).map Row.canonical_input =
        mapping.map Row.canonical_input := by
  refine ⟨?_, ?_, ?_⟩ <;> simp [get_ids, List.map_map]

/-- C9 witness at a one-row mapping. -/
theorem resolution_changes_only_tmdb_id_witness :
    (get_ids (fun _ _ => (603 : Int)) 0 false
        [{ tmdb_id := 0, tmdb_id_man := 0, input := "1999 The Matrix",
           canonical_input := "1999 The Matrix" }]).map Row.input =
      ["1999 The Matrix"] := by
  exact (resolution_changes_only_tmdb_id (fun _ _ => (603 : Int)) 0 false
      [{ tmdb_id := 0, tmdb_id_man := 0, input := "1999 The Matrix",
         canonical_input := "1999 The Matrix" }] (by decide)).2.1.trans (by rfl)

/-- C3: with a provided year, the resolver first issues the title+year
lookup and returns the first result's ID; on an empty result set it returns
`NO_RESULT` without issuing a title-only lookup when strict, and falls back
to the title-only lookup otherwise (first result's ID, `NO_RESULT` on empty,
`BAD_RESPONSE` on malformed); a malformed response at either step returns
`BAD_RESPONSE` immediately.  Independence from the title-only collaborator
(`∀ other`) expresses that no title-only request is issued on those paths. -/
theorem resolver_fallback_policy
    (search_with_year : String → Int → Option (List (Option Int)))
    (search_title_only : String → Option (List (Option Int)))
    (strict : Bool) (title : String) (year : Int) (hyear : year ≠ NO_RESULT) :
    (∀ i rest, search_with_year title year = some (some i :: rest) →
        ∀ other, get_id search_with_year other strict title year = i) ∧
    (search_with_year title year = some [] → strict = true →
        ∀ other, get_id search_with_year other true title year = NO_RESULT) ∧
    (search_with_year title year = some [] → strict = false →
        (∀ i rest, search_title_only title = some (some i :: rest) →
            get_id search_with_year search_title_only false title year = i) ∧
        (search_title_only title = some [] →
            get_id search_with_year search_title_only false title year = NO_RESULT) ∧
        (search_title_only title = none →
            get_id search_with_year search_title_only false title year = BAD_RESPONSE) ∧
        (∀ rest, search_title_only title = some (none :: rest) →
            get_id search_with_year search_title_only false title year = BAD_RESPONSE)) ∧
    (search_with_year title year = none →
        ∀ other, get_id search_with_year other strict title year = BAD_RESPONSE) ∧
    (∀ rest, search_with_year title year = some (none :: rest) →
        ∀ other, get_id search_with_year other strict title year = BAD_RESPONSE) := by
  refine ⟨fun i rest h other => ?_, fun h _ other => ?_, fun h hs => ?_,
      fun h other => ?_, fun rest h other => ?_⟩
  · simp [get_id, hyear, h, firstId]
  · simp [get_id, hyear, h, firstId]
  · subst hs
    refine ⟨fun i rest h2 => ?_, fun h2 => ?_, fun h2 => ?_, fun rest h2 => ?_⟩ <;>
      simp [get_id, hyear, h, h2, firstId]
  · simp [get_id, hyear, h, firstId]
  · simp [get_id, hyear, h, firstId]

/-- C3 witness: the spec's fallback and strict examples, with a title+year
lookup returning no results and a title-only lookup returning ID 27205. -/
theorem resolver_fallback_policy_witness :
    get_id (fun _ _ => some []) (fun _ => some [some 27205]) false "Inception" 2010
        = 27205 ∧
      get_id (fun _ _ => some []) (fun _ => some [some 27205]) true "Inception" 2010
        = NO_RESULT := by
  have h := resolver_fallback_policy (fun _ _ => some []) (fun _ => some [some 27205])
    false "Inception" 2010 (by decide)
  have h2 := resolver_fallback_policy (fun _ _ => some []) (fun _ => some [some 27205])
    true "Inception" 2010 (by decide)
  exact ⟨(h.2.2.1 rfl rfl).1 27205 [] rfl, h2.2.1 rfl rfl _⟩

/-- Auto-detection can only return a key of the pattern dictionary. -/
theorem guess_parsing_style_mem (names : List String) (s : Int)
    (h : guess_parsing_style names = some s) : s = 0 ∨ s = 1 := by
  simp only [guess_parsing_style] at h
  split_ifs at h <;> simp_all

/-- C10: whenever the pipeline reaches the per-row extraction step, the
selected parsing style is a key of the pattern dictionary: an accepted
explicit selector is 0 (or -1, which triggers auto-detection), and
auto-detection returns 0 or 1 or aborts; so the dictionary lookup inside the
`_get_ids` helper always succeeds. -/
theorem selected_parsing_style_always_valid (parsing_style : Int)
    (names : List String) (s : Int)
    (hacc : parsing_style_accepted parsing_style = true)
    (hsel : parse_pipeline_style parsing_style names = some s) :
    (get_parsing_pattern s).isSome = true := by
  have hmax : max_parsing_pattern_key = 1 := by decide
  have hp : parsing_style = -1 ∨ parsing_style = 0 := by
    simp only [parsing_style_accepted, hmax, Bool.and_eq_true, decide_eq_true_eq] at hacc
    omega
  have hs : s = 0 ∨ s = 1 := by
    rcases hp with hp | hp
    · rw [parse_pipeline_style, if_pos hp] at hsel
      exact guess_parsing_style_mem names s hsel
    · rw [parse_pipeline_style, if_neg (by rw [hp]; decide)] at hsel
      left
      have := Option.some.inj hsel
      omega
  rcases hs with hs | hs <;> rw [hs] <;> rfl

/-- C10 witness: auto-detection (selector -1) on a single space-separated
name selects a valid pattern key. -/
theorem selected_parsing_style_always_valid_witness :
    (get_parsing_pattern 0).isSome = true := by
  exact selected_parsing_style_always_valid (-1) ["1999 The Matrix"] 0
    (by decide) (by decide)

/-- C7: merging a persisted mapping with a fresh batch keeps, for every
canonical input present in both, exactly one row: the first matching
persisted row, with its previously resolved ID. -/
theorem merge_keeps_persisted_row (cached fresh : List Row) (c : String)
    (h1 : c ∈ cached.map Row.canonical_input)
    (_h2 : c ∈ fresh.map Row.canonical_input) :
    (update_mapping cached fresh).filter (fun r => decide (r.canonical_input = c)) =
        (cached.find? fun r => decide (r.canonical_input = c)).toList ∧
      ((update_mapping cached fresh).filter
          (fun r => decide (r.canonical_input = c))).length = 1 := by
  obtain ⟨r0, hr0⟩ : ∃ r, cached.find? (fun r => decide (r.canonical_input = c)) = some r := by
    rw [← Option.isSome_iff_exists, List.find?_isSome]
    obtain ⟨r, hr, hrc⟩ := List.mem_map.mp h1
    exact ⟨r, hr, by simp [hrc]⟩
  have hmain : (update_mapping cached fresh).filter
      (fun r => decide (r.canonical_input = c)) = [r0] := by
    rw [update_mapping, drop_duplicates, drop_duplicates_go_filter,
      if_neg (List.not_mem_nil c), List.find?_append, hr0]
    rfl
  exact ⟨by rw [hmain, hr0]; rfl, by rw [hmain]; rfl⟩

/-- C7 witness: a persisted `"1999 The Matrix" -> 603` row beats a fresh
duplicate holding `DEFAULT`. -/
theorem merge_keeps_persisted_row_witness :
    (update_mapping
        [{ tmdb_id := 603, tmdb_id_man := 0, input := "1999 The Matrix",
           canonical_input := "1999 The Matrix" }]
        [{ tmdb_id := 0, tmdb_id_man := 0, input := "1999 The Matrix",
           canonical_input := "1999 The Matrix" }]).filter
        (fun r => decide (r.canonical_input = "1999 The Matrix")) =
      [{ tmdb_id := 603, tmdb_id_man := 0, input := "1999 The Matrix",
         canonical_input := "1999 The Matrix" }] := by
  exact (merge_keeps_persisted_row
      [{ tmdb_id := 603, tmdb_id_man := 0, input := "1999 The Matrix",
         canonical_input := "1999 The Matrix" }]
      [{ tmdb_id := 0, tmdb_id_man := 0, input := "1999 The Matrix",
         canonical_input := "1999 The Matrix" }]
      "1999 The Matrix" (by decide) (by decide)).1.trans (by decide)

/-- C6: a second resolution pass over an unchanged movie list with
`eager = false` reproduces the first pass's mapping table exactly (no
duplicate rows, no changed IDs): non-`DEFAULT` rows short-circuit to their
existing value and `DEFAULT` rows re-resolve to the same value.  With
`eager = true` the helper ignores the existing ID on every row. -/
theorem resolution_pass_idempotent (resolve : String → Int → Int)
    (parsing_style : Int) (cached_mapping : List Row) (movielist : List String)
    (_hstyle : parsing_style ∈ parsing_pattern_keys) :
    resolution_pass resolve parsing_style false
        (resolution_pass resolve parsing_style false cached_mapping movielist)
        movielist =
      resolution_pass resolve parsing_style false cached_mapping movielist ∧
    (∀ canon t tnew, get_ids_helper resolve parsing_style true canon t =
        get_ids_helper resolve parsing_style true canon tnew) := by
  constructor
  · have hQkeys : ∀ c ∈ (fresh_mapping movielist).map Row.canonical_input,
        c ∈ (update_mapping cached_mapping (fresh_mapping movielist)).map
              Row.canonical_input := by
      intro c hc
      rw [update_mapping, drop_duplicates, mem_keys_drop_duplicates_go]
      refine ⟨?_, List.not_mem_nil c⟩
      rw [List.map_append]
      exact List.mem_append_right _ hc
    have hPkeys : (get_ids resolve parsing_style false
          (update_mapping cached_mapping (fresh_mapping movielist))).map
            Row.canonical_input =
        (update_mapping cached_mapping (fresh_mapping movielist)).map
          Row.canonical_input :=
      get_ids_keys resolve parsing_style false _
    have h1 : update_mapping
        (get_ids resolve parsing_style false
          (update_mapping cached_mapping (fresh_mapping movielist)))
        (fresh_mapping movielist) =
        get_ids resolve parsing_style false
          (update_mapping cached_mapping (fresh_mapping movielist)) := by
      rw [update_mapping, drop_duplicates, drop_duplicates_go_append]
      · apply drop_duplicates_go_of_nodup
        · rw [hPkeys, update_mapping, drop_duplicates]
          exact drop_duplicates_go_keys_nodup [] _
        · intro c _
          exact List.not_mem_nil c
      · intro c hc
        left
        rw [hPkeys]
        exact hQkeys c hc
    simp only [resolution_pass]
    rw [h1, get_ids_not_eager_idem]
  · intro canon t tnew
    simp [get_ids_helper]

/-- C6 witness: a concrete second pass over the same one-element list. -/
theorem resolution_pass_idempotent_witness :
    resolution_pass (fun _ _ => (603 : Int)) 0 false
        (resolution_pass (fun _ _ => (603 : Int)) 0 false [] ["1999 The Matrix"])
        ["1999 The Matrix"] =
      resolution_pass (fun _ _ => (603 : Int)) 0 false [] ["1999 The Matrix"] := by
  exact (resolution_pass_idempotent (fun _ _ => (603 : Int)) 0 []
    ["1999 The Matrix"] (by decide)).1

/-- C2 counterexample: a document in which `genres` is the only missing
section — `credits` carries well-formed cast and crew lists, the collection
field is an explicit null, the remaining lists are present — makes the whole
normalization abort (`none` models the uncaught `KeyError`): no cast, crew
or details rows are produced for the ID, contrary to the claimed isolation. -/
theorem malformed_genres_aborts_extraction :
    dissect_metadata_response emptyTables genresMissingDoc 603 = none ∧
      genresMissingDoc.credits = some (some ["cast-row"], some ["crew-row"]) ∧
      genresMissingDoc.genres = none := by
  exact ⟨rfl, rfl, rfl⟩

/-- C2 amended: only an empty (but present) section — or a null
`belongs_to_collection` — degrades to an empty extraction for that section
while the other sections are extracted correctly; a missing or malformed
nested section aborts the extraction of every section for that ID. -/
theorem section_isolation_amended (t : Tables) (tid : Int)
    (castRows crewRows pc pcn sl : List String) (pay : String) :
    dissect_metadata_response t
        { credits := some (some castRows, some crewRows),
          belongs_to_collection := some none, genres := some [],
          production_companies := some pc, production_countries := some pcn,
          spoken_languages := some sl, has_id := true, details_payload := pay }
        tid =
      some { cast := t.cast ++ tag tid castRows, collect := t.collect,
             crew := t.crew ++ tag tid crewRows, genres := t.genres,
             prod_comp := t.prod_comp ++ tag tid pc,
             prod_count := t.prod_count ++ tag tid pcn,
             spoken_langs := t.spoken_langs ++ tag tid sl,
             details := t.details ++ [(tid, pay)] } ∧
    (∀ resp : MetadataResponse, resp.genres = none →
        dissect_metadata_response t resp tid = none) := by
  constructor
  · simp [dissect_metadata_response, tag]
  · intro resp hg
    obtain ⟨cred, btc, g, pc2, pcn2, sl2, hid, pay2⟩ := resp
    have hg2 : g = none := hg
    subst hg2
    cases cred with
    | none => rfl
    | some p =>
        obtain ⟨co, cr⟩ := p
        cases co with
        | none => rfl
        | some castR =>
            cases btc with
            | none => rfl
            | some b =>
                cases cr with
                | none => rfl
                | some crewR => rfl

/-- C2 amended witness: a concrete document with an empty `genres` list
yields the other tables' rows, and the counterexample document (missing
`genres`) aborts. -/
theorem section_isolation_amended_witness :
    dissect_metadata_response emptyTables
        { credits := some (some ["c1"], some ["w1"]),
          belongs_to_collection := some none, genres := some [],
          production_companies := some [], production_countries := some [],
          spoken_languages := some [], has_id := true, details_payload := "d" }
        603 =
      some { cast := [(603, "c1")], collect := [], crew := [(603, "w1")],
             genres := [], prod_comp := [], prod_count := [], spoken_langs := [],
             details := [(603, "d")] } ∧
    dissect_metadata_response emptyTables genresMissingDoc 603 = none := by
  have h := section_isolation_amended emptyTables 603 ["c1"] ["w1"] [] [] [] "d"
  exact ⟨h.1.trans (by rfl), h.2 genresMissingDoc rfl⟩

end Movieparse
